import Mathlib

/-!
Shallow embedding of the voucher-approval core of the `voucher_system`
Django application (files `vouchers/models.py`, `vouchers/views.py`,
`vouchers/serializers.py`).  Database tables are modelled as lists of
records inside a `DB` structure; the Django ORM operations used by the
code (`filter`, `values_list`, `update_or_create`, `order_by('-id').first()`,
…) are translated into explicit list manipulations.  Decimal amounts are
modelled as `Rat`; timestamps as `Nat`.
-/

namespace VoucherSystem

/-- A row of Django's `auth_user` table together with its group memberships
(`user.groups`) and the superuser flag, as consumed by the views. -/
structure UserRec where
  username : String
  groups : List String
  isSuperuser : Bool
deriving DecidableEq, Inhabited

/-- `UserProfile` (models.py): one-to-one extension of a user holding at most
one designation (we store the designation's id, `None` allowed). -/
structure ProfileRec where
  username : String
  designation : Option Nat
deriving DecidableEq, Inhabited

/-- `Designation` (models.py): a named role with a unique name. -/
structure DesignationRec where
  id : Nat
  name : String
deriving DecidableEq, Inhabited

/-- `ActiveApprovalDesignation` (models.py): per-designation activation flag
plus audit fields `updated_by` / `updated_at` (`auto_now=True`). -/
structure ActiveRec where
  designationId : Nat
  isActive : Bool
  updatedBy : String
  updatedAt : Nat
deriving DecidableEq, Inhabited

/-- `Voucher` (models.py). `attachment` stores the uploaded file's name. -/
structure VoucherRec where
  id : Nat
  voucherNumber : String
  voucherDate : String
  paymentType : String
  nameTitle : String
  payTo : String
  chequeNumber : Option String
  attachment : Option String
  createdBy : String
  status : String
deriving DecidableEq, Inhabited

/-- `Particular` (models.py): a line item belonging to one voucher. -/
structure ParticularRec where
  voucherId : Nat
  description : String
  amount : Rat
  attachment : Option String
deriving DecidableEq, Inhabited

/-- `VoucherApproval` (models.py): one decision by one approver on one
voucher; `approved_at` has `auto_now_add=True`, i.e. it is set when the row
is first inserted and is not touched by later saves. -/
structure ApprovalRec where
  voucherId : Nat
  approver : String
  status : String
  approvedAt : Nat
deriving DecidableEq, Inhabited

/-- The relational store: one list per table. -/
structure DB where
  users : List UserRec
  profiles : List ProfileRec
  designations : List DesignationRec
  activeDes : List ActiveRec
  vouchers : List VoucherRec
  particulars : List ParticularRec
  approvals : List ApprovalRec
deriving DecidableEq, Inhabited

/-- `request.user.groups.filter(name='Admin Staff').exists()`. -/
def isAdminStaff (db : DB) (u : String) : Bool :=
  db.users.any (fun r => r.username == u && r.groups.contains "Admin Staff")

/-- `request.user.groups.filter(name='Accountants').exists()`. -/
def isAccountant (db : DB) (u : String) : Bool :=
  db.users.any (fun r => r.username == u && r.groups.contains "Accountants")

/-- `request.user.is_superuser`. -/
def isSuperuser (db : DB) (u : String) : Bool :=
  db.users.any (fun r => r.username == u && r.isSuperuser)

/-- `ActiveApprovalDesignation.objects.filter(is_active=True)
.values_list('designation__id', flat=True)`. -/
def activeDesIds (db : DB) : List Nat :=
  (db.activeDes.filter (·.isActive)).map (·.designationId)

/-- Helper shared by both required-approver queries: does this profile's
designation lie in the active set (`designation__id__in=active_des_ids`)?
A `NULL` designation matches nothing. -/
def designationActive (db : DB) (d : Option Nat) : Bool :=
  match d with
  | some i => (activeDesIds db).contains i
  | none => false

/-- `Voucher.required_approvers` (models.py lines 66–77): usernames of the
`UserProfile` rows whose user is in the `Admin Staff` group and whose
designation is currently active; `.distinct()` collapses duplicate rows
(modelled by `List.dedup` on the selected profile rows). -/
def required_approvers (db : DB) : List String :=
  ((db.profiles.filter (fun p =>
      isAdminStaff db p.username && designationActive db p.designation)).dedup).map
    (·.username)

/-- The `required_approvers` property is computed on a voucher instance but
reads nothing from the instance; this wrapper records that fact. -/
def voucherRequiredApprovers (db : DB) (_v : VoucherRec) : List String :=
  required_approvers db

/-- `VoucherSerializer.get_required_approvers` (serializers.py lines 88–100):
the same set computed from the `User` side, with
`.values_list('username', flat=True).distinct()` dedupling usernames. -/
def get_required_approvers (db : DB) : List String :=
  ((db.users.filter (fun r =>
      r.groups.contains "Admin Staff" &&
      db.profiles.any (fun p =>
        p.username == r.username && designationActive db p.designation))).map
    (·.username)).dedup

/-- Approval rows belonging to one voucher (`self.approvals`). -/
def voucherApprovals (db : DB) (vid : Nat) : List ApprovalRec :=
  db.approvals.filter (fun a => a.voucherId == vid)

/-- `Voucher._update_status_if_all_approved` (models.py lines 79–94): full
recomputation of the voucher status from the stored approval rows and the
live required-approver list. -/
def update_status_if_all_approved (db : DB) (vid : Nat) : DB :=
  let required := required_approvers db
  if required.isEmpty then db
  else
    let approvedCount :=
      ((voucherApprovals db vid).filter (fun a => a.status == "APPROVED")).length
    let hasRejection :=
      (voucherApprovals db vid).any (fun a => a.status == "REJECTED")
    let newStatus :=
      if hasRejection then "REJECTED"
      else if approvedCount = required.length then "APPROVED"
      else "PENDING"
    { db with
      vouchers := db.vouchers.map (fun v =>
        if v.id == vid then { v with status := newStatus } else v) }

/-- `VoucherApproval.objects.update_or_create(voucher=…, approver=…,
defaults={'status': st})`: update the matching row's `status` if one exists,
otherwise insert a new row.  `approved_at` has `auto_now_add=True`, so it is
set to the current time only on insert and left untouched on update. -/
def upsertApproval (l : List ApprovalRec) (vid : Nat) (u : String)
    (st : String) (now : Nat) : List ApprovalRec :=
  if l.any (fun a => a.voucherId == vid && a.approver == u) then
    l.map (fun a =>
      if a.voucherId == vid && a.approver == u then { a with status := st } else a)
  else l ++ [⟨vid, u, st, now⟩]

/-- First stored approval row for a (voucher, approver) pair. -/
def findApproval (l : List ApprovalRec) (vid : Nat) (u : String) : Option ApprovalRec :=
  l.find? (fun a => a.voucherId == vid && a.approver == u)

/-- `Voucher.objects.get(pk=vid)` (via `get_object_or_404`). -/
def findVoucher (db : DB) (vid : Nat) : Option VoucherRec :=
  db.vouchers.find? (fun v => v.id == vid)

/-- Request outcomes other than a successful response. -/
inductive ApiError where
  /-- `AdminStaffRequiredMixin` redirects a non-Admin-Staff, non-superuser
  caller away (no mutation happens). -/
  | notAdminStaff
  /-- `get_object_or_404` raised for an unknown voucher id. -/
  | notFound
  /-- 400: `{'status': ['Invalid choice.']}`. -/
  | invalidStatus
  /-- 403: `'You are not authorized to approve this voucher.'`. -/
  | notRequiredApprover
  /-- 403: `'Superuser only'`. -/
  | superuserOnly
deriving DecidableEq, Inhabited

/-- `VoucherApprovalAPI.post` (views.py lines 210–237): mixin group gate,
voucher lookup, decision-value validation, live required-approver
authorization, then the atomic upsert + status recomputation.  The returned
`Nat` is `approval.approved_at` as echoed in the response payload (the
upserted row always exists, so the `getD now` default is never taken). -/
def recordDecision (db : DB) (actor : String) (vid : Nat)
    (decision : String) (now : Nat) : Except ApiError (DB × Nat) :=
  if !(isAdminStaff db actor || isSuperuser db actor) then .error .notAdminStaff
  else
    match findVoucher db vid with
    | none => .error .notFound
    | some _ =>
      if !((["APPROVED", "REJECTED"] : List String).contains decision) then
        .error .invalidStatus
      else if !((required_approvers db).contains actor) then
        .error .notRequiredApprover
      else
        let db1 := { db with approvals := upsertApproval db.approvals vid actor decision now }
        let db2 := update_status_if_all_approved db1 vid
        .ok (db2, ((findApproval db2.approvals vid actor).map (·.approvedAt)).getD now)

/-- `ActiveApprovalDesignation.objects.update_or_create(designation=d,
defaults={'is_active': b, 'updated_by': actor})`; `updated_at` has
`auto_now=True` and is stamped on every save. -/
def upsertActive (l : List ActiveRec) (did : Nat) (b : Bool)
    (actor : String) (now : Nat) : List ActiveRec :=
  if l.any (·.designationId == did) then
    l.map (fun a =>
      if a.designationId == did then
        { a with isActive := b, updatedBy := actor, updatedAt := now }
      else a)
  else l ++ [⟨did, b, actor, now⟩]

/-- The `for designation in Designation.objects.all()` loop of
`ApprovalControlAPI.post` (views.py lines 321–326). -/
def setActiveList (des : List DesignationRec) (l : List ActiveRec)
    (ids : List Nat) (actor : String) (now : Nat) : List ActiveRec :=
  des.foldl (fun acc d => upsertActive acc d.id (ids.contains d.id) actor now) l

/-- `ApprovalControlAPI.post` (views.py lines 313–330): superuser gate, then
a full replace of the activation table.  (`str(designation.id) in
[str(x) for x in active_ids]` on decimal representations is id equality,
modelled by `List.contains`.) -/
def setActiveSet (db : DB) (ids : List Nat) (actor : String) (now : Nat) :
    Except ApiError DB :=
  if !(isSuperuser db actor) then .error .superuserOnly
  else .ok { db with activeDes := setActiveList db.designations db.activeDes ids actor now }

/-! ### Voucher numbering (`Voucher.save`, models.py lines 53–61) -/

/-- Decimal digit character for a value below ten (the `_` arm is only
reached at `9` under that bound). -/
def digitChar : Nat → Char
  | 0 => '0' | 1 => '1' | 2 => '2' | 3 => '3' | 4 => '4'
  | 5 => '5' | 6 => '6' | 7 => '7' | 8 => '8' | _ => '9'

/-- Decimal digits of `n`, most significant first, prepended to `acc`. -/
def natDigitsAux (n : Nat) (acc : List Char) : List Char :=
  if h : n = 0 then acc
  else natDigitsAux (n / 10) (digitChar (n % 10) :: acc)
decreasing_by exact Nat.div_lt_self (Nat.pos_of_ne_zero h) (by omega)

/-- Decimal representation of `n` as a character list (`str(n)`). -/
def natDigits (n : Nat) : List Char :=
  if n = 0 then ['0'] else natDigitsAux n []

/-- Value of a digit-character list, most significant first. -/
def valDigits (l : List Char) : Nat :=
  l.foldl (fun a c => a * 10 + (c.toNat - 48)) 0

/-- Python `int(s)` restricted to plain digit strings (the only shape that
occurs for voucher-number suffixes); anything else raises, modelled as
`none`. -/
def pyInt (s : String) : Option Nat :=
  if s.data ≠ [] ∧ s.data.all (·.isDigit) then some (valDigits s.data) else none

/-- `f'{num:04d}'`: decimal digits left-padded with zeros to width 4. -/
def pad4 (n : Nat) : List Char :=
  List.replicate (4 - (natDigits n).length) '0' ++ natDigits n

/-- The characters of the `'VCH'` prefix. -/
def vchChars : List Char := ['V', 'C', 'H']

/-- `'VCH'` followed by the zero-padded suffix `n`. -/
def mkVoucherNumber (n : Nat) : String :=
  String.mk (vchChars ++ pad4 n)

/-- `Voucher.objects.order_by('-id').first()`: the row with the largest id
(first such row on—impossible—ties). -/
def lastVoucher (vs : List VoucherRec) : Option VoucherRec :=
  vs.foldl (fun acc v =>
    match acc with
    | none => some v
    | some w => if w.id < v.id then some v else some w) none

/-- Numeric suffix of a voucher's number (`int(voucher_number[3:])`). -/
def suffixOf (v : VoucherRec) : Option Nat :=
  pyInt (String.mk (v.voucherNumber.data.drop 3))

/-- The number assigned by `Voucher.save` when `voucher_number` is blank:
`'VCH0001'` when no voucher exists or the last voucher's number does not
start with `'VCH'`, otherwise last suffix + 1 zero-padded; `none` models the
`int()` exception on an unparsable suffix. -/
def nextVoucherNumber (vs : List VoucherRec) : Option String :=
  match lastVoucher vs with
  | none => some (mkVoucherNumber 1)
  | some w =>
    if w.voucherNumber.data.take 3 = vchChars then
      (pyInt (String.mk (w.voucherNumber.data.drop 3))).map
        (fun n => mkVoucherNumber (n + 1))
    else some (mkVoucherNumber 1)

/-- Auto-increment primary key for a new voucher row. -/
def newVoucherId (vs : List VoucherRec) : Nat :=
  (vs.foldl (fun m v => max m v.id) 0) + 1

/-! ### Voucher submission (`VoucherCreateAPI.post`, views.py lines 138–207,
and `VoucherSerializer`, serializers.py) -/

/-- Python `str.strip()` whitespace test (ASCII whitespace suffices here). -/
def isPySpace (c : Char) : Bool :=
  c = ' ' || c = '\t' || c = '\n' || c = '\r' || c = Char.ofNat 11 || c = Char.ofNat 12

/-- List-level core of Python `str.strip()`: drop whitespace from both
ends. -/
def stripChars (l : List Char) : List Char :=
  ((l.dropWhile isPySpace).reverse.dropWhile isPySpace).reverse

/-- Python `str.strip()`. -/
def pyStrip (s : String) : String :=
  String.mk (stripChars s.data)

/-- Unsigned part of Python `Decimal(str)`: digits with an optional decimal
point, at least one digit overall.  (Exponent notation, `Infinity` and `NaN`
are accepted by the Python library but never relevant here and are not
modelled.) -/
def parseUnsignedDecimal (l : List Char) : Option Rat :=
  match l.splitOn '.' with
  | [intPart] =>
    if intPart ≠ [] ∧ intPart.all (·.isDigit) then some ((valDigits intPart : Nat) : Rat)
    else none
  | [intPart, fracPart] =>
    if (intPart ≠ [] ∨ fracPart ≠ []) ∧ intPart.all (·.isDigit) ∧
        fracPart.all (·.isDigit) then
      some (((valDigits intPart : Nat) : Rat) +
        ((valDigits fracPart : Nat) : Rat) / ((10 : Rat) ^ fracPart.length))
    else none
  | _ => none

/-- Python `Decimal(str)` on an already-stripped string; `none` models
`InvalidOperation`. -/
def parseDecimal (s : String) : Option Rat :=
  match s.data with
  | '-' :: rest => (parseUnsignedDecimal rest).map (fun q => -q)
  | '+' :: rest => parseUnsignedDecimal rest
  | l => parseUnsignedDecimal l

/-- One `particulars[i][…]` group of the submitted form data. -/
structure PartInput where
  description : String
  amount : String
  attachment : Option (String × Nat)
deriving DecidableEq, Inhabited

/-- A particular as rebuilt by the view loop (description and parsed
amount kept together with the optional attachment). -/
structure BuiltPart where
  description : String
  amount : Rat
  attachment : Option (String × Nat)
deriving DecidableEq, Inhabited

/-- Structured validation failures of `VoucherCreateAPI.post`; the index
payloads are the 1-based item numbers used in the response messages. -/
inductive SubmitError where
  /-- `AccountantRequiredMixin` turned the caller away. -/
  | notAccountant
  /-- `'Invalid amount for item {i}'`. -/
  | invalidAmount (i : Nat)
  /-- `'Amount must be > 0 for item {i}'`. -/
  | nonPositiveAmount (i : Nat)
  /-- `'At least one particular is required.'`. -/
  | noParticulars
  /-- `'Main attachment is required.'`. -/
  | missingAttachment
  /-- `payment_type` not among the model choices. -/
  | invalidPaymentType
  /-- `name_title` not among the model choices. -/
  | invalidNameTitle
  /-- cheque number longer than the `max_length=20` of the serializer field. -/
  | chequeTooLong
  /-- `FileExtensionValidator` refused an attachment. -/
  | badExtension
  /-- `'File size cannot exceed 5 MB.'`. -/
  | fileTooLarge
  /-- `'Cheque number is required for Cheque payments.'`. -/
  | chequeRequired
  /-- `'Cheque number must contain only digits.'`. -/
  | chequeNotDigits
  /-- the `int()` call inside `Voucher.save` raised (unparsable suffix). -/
  | numberingCrash
deriving DecidableEq, Inhabited

/-- The `while f'particulars[{i}][description]' in data` loop (views.py
lines 146–173): items whose stripped description and amount are both
non-empty are parsed and validated (errors carry the 1-based index);
all other items are skipped without any error. -/
def buildParticulars : List PartInput → Nat → Except SubmitError (List BuiltPart)
  | [], _ => .ok []
  | p :: rest, i =>
    let desc := pyStrip p.description
    let amt := pyStrip p.amount
    if desc ≠ "" ∧ amt ≠ "" then
      match parseDecimal amt with
      | none => .error (.invalidAmount (i + 1))
      | some q =>
        if q ≤ 0 then .error (.nonPositiveAmount (i + 1))
        else
          (buildParticulars rest (i + 1)).map
            (fun l => ⟨desc, q, p.attachment⟩ :: l)
    else buildParticulars rest (i + 1)

/-- One submission request: the relevant `request.POST` fields and
`request.FILES` entries.  Files are modelled as (name, size) pairs. -/
structure SubmitReq where
  actor : String
  voucherDate : String
  paymentType : String
  nameTitle : String
  payTo : String
  chequeNumberRaw : String
  attachment : Option (String × Nat)
  particulars : List PartInput
deriving DecidableEq, Inhabited

/-- Extension of a file name as taken by `FileExtensionValidator`
(the part after the final dot, lowercased; empty when there is no dot). -/
def fileExt (name : String) : String :=
  match (name.data.splitOn '.').reverse with
  | [] => ""
  | [_] => ""
  | e :: _ => String.mk (e.map Char.toLower)

/-- `FileExtensionValidator(allowed_extensions=[…])` plus the explicit 5 MB
ceiling of `validate_attachment`. -/
def attachmentOk (f : String × Nat) : Bool :=
  (["pdf", "jpg", "jpeg", "png", "doc", "docx"] : List String).contains (fileExt f.1) &&
  f.2 ≤ 5 * 1024 * 1024

/-- The data that survives view-level and serializer-level validation. -/
structure ValidatedSubmission where
  voucherDate : String
  paymentType : String
  nameTitle : String
  payTo : String
  chequeNumber : Option String
  attachment : String × Nat
  particulars : List BuiltPart
deriving DecidableEq, Inhabited

/-- All validation performed by `VoucherCreateAPI.post` before any write:
the mixin group gate, the particulars-rebuilding loop, the main-attachment
presence check, the cheque-number preprocessing (views.py line 189), the
serializer field validators (choice fields, `max_length`, file extension and
size for the main and per-particular attachments) and
`VoucherSerializer.validate` (serializers.py lines 108–132). -/
def validateSubmission (db : DB) (req : SubmitReq) :
    Except SubmitError ValidatedSubmission :=
  if !(isAccountant db req.actor) then .error .notAccountant
  else
    match buildParticulars req.particulars 0 with
    | .error e => .error e
    | .ok parts =>
      if parts.isEmpty then .error .noParticulars
      else
        match req.attachment with
        | none => .error .missingAttachment
        | some att =>
          let cheque : Option String :=
            if req.paymentType = "CHEQUE" then some (pyStrip req.chequeNumberRaw)
            else none
          if !((["CASH", "CHEQUE", "PETTY_CASH"] : List String).contains
              req.paymentType) then .error .invalidPaymentType
          else if !((["MR", "MRS", "MS"] : List String).contains req.nameTitle) then
            .error .invalidNameTitle
          else if (cheque.getD "").length > 20 then .error .chequeTooLong
          else if !(attachmentOk att) then
            (if !((["pdf", "jpg", "jpeg", "png", "doc", "docx"] : List String).contains
                (fileExt att.1)) then .error .badExtension
             else .error .fileTooLarge)
          else if parts.any (fun p =>
              match p.attachment with
              | some f => !((["pdf", "jpg", "jpeg", "png", "doc", "docx"] :
                  List String).contains (fileExt f.1))
              | none => false) then .error .badExtension
          else if parts.any (fun p =>
              match p.attachment with
              | some f => f.2 > 5 * 1024 * 1024
              | none => false) then .error .fileTooLarge
          else if req.paymentType = "CHEQUE" then
            let c := pyStrip (cheque.getD "")
            if c = "" then .error .chequeRequired
            else if !(c.data.all (·.isDigit)) then .error .chequeNotDigits
            else .ok ⟨req.voucherDate, req.paymentType, req.nameTitle, req.payTo,
              some c, att, parts⟩
          else
            .ok ⟨req.voucherDate, req.paymentType, req.nameTitle, req.payTo,
              none, att, parts⟩

/-- `VoucherSerializer.create` (serializers.py lines 142–156) together with
`Voucher.save`: assign the sequential number, insert the voucher row and its
particular rows.  Status starts at the model default `'PENDING'`. -/
def persistSubmission (db : DB) (vd : ValidatedSubmission) (actor : String) :
    DB × Except SubmitError VoucherRec :=
  match nextVoucherNumber db.vouchers with
  | none => (db, .error .numberingCrash)
  | some vn =>
    let vid := newVoucherId db.vouchers
    let v : VoucherRec :=
      ⟨vid, vn, vd.voucherDate, vd.paymentType, vd.nameTitle, vd.payTo,
        vd.chequeNumber, some vd.attachment.1, actor, "PENDING"⟩
    ({ db with
        vouchers := db.vouchers ++ [v],
        particulars := db.particulars ++ vd.particulars.map (fun p =>
          ⟨vid, p.description, p.amount, p.attachment.map (·.1)⟩) },
      .ok v)

/-- `VoucherCreateAPI.post` end to end: validate, then (only on success)
persist.  The first component is the store after the request. -/
def submit (db : DB) (req : SubmitReq) : DB × Except SubmitError VoucherRec :=
  match validateSubmission db req with
  | .error e => (db, .error e)
  | .ok vd => persistSubmission db vd req.actor

/-! ### Lemmas: approver resolution -/

theorem mem_required_approvers (db : DB) (u : String) :
    u ∈ required_approvers db ↔
      isAdminStaff db u = true ∧
        ∃ p ∈ db.profiles, p.username = u ∧ designationActive db p.designation = true := by
  unfold required_approvers
  simp only [List.mem_map, List.mem_dedup, List.mem_filter, Bool.and_eq_true]
  constructor
  · rintro ⟨p, ⟨hp, hadm, hact⟩, rfl⟩
    exact ⟨hadm, p, hp, rfl, hact⟩
  · rintro ⟨hadm, p, hp, rfl, hact⟩
    exact ⟨p, ⟨hp, hadm, hact⟩, rfl⟩

theorem isAdminStaff_iff (db : DB) (u : String) :
    isAdminStaff db u = true ↔
      ∃ r ∈ db.users, r.username = u ∧ r.groups.contains "Admin Staff" = true := by
  unfold isAdminStaff
  simp only [List.any_eq_true, Bool.and_eq_true, beq_iff_eq]

theorem mem_get_required_approvers (db : DB) (u : String) :
    u ∈ get_required_approvers db ↔
      isAdminStaff db u = true ∧
        ∃ p ∈ db.profiles, p.username = u ∧ designationActive db p.designation = true := by
  unfold get_required_approvers
  simp only [List.mem_dedup, List.mem_map, List.mem_filter, Bool.and_eq_true,
    List.any_eq_true, beq_iff_eq]
  constructor
  · rintro ⟨r, ⟨hr, hg, p, hp, hpu, hact⟩, rfl⟩
    exact ⟨(isAdminStaff_iff db r.username).mpr ⟨r, hr, rfl, hg⟩, p, hp, hpu, hact⟩
  · rintro ⟨hadm, p, hp, rfl, hact⟩
    obtain ⟨r, hr, hru, hg⟩ := (isAdminStaff_iff db p.username).mp hadm
    exact ⟨r, ⟨hr, hg, p, hp, hru.symm, hact⟩, hru⟩

theorem required_approvers_nodup (db : DB)
    (huniq : (db.profiles.map (·.username)).Nodup) :
    (required_approvers db).Nodup := by
  unfold required_approvers
  have hsub :
      ((db.profiles.filter (fun p =>
          isAdminStaff db p.username && designationActive db p.designation)).map
        (·.username)).Sublist (db.profiles.map (·.username)) :=
    (List.filter_sublist _).map _
  have hnodup := huniq.sublist hsub
  have hpn : (db.profiles.filter (fun p =>
      isAdminStaff db p.username && designationActive db p.designation)).Nodup :=
    List.Nodup.of_map _ hnodup
  rw [List.dedup_eq_self.mpr hpn]
  exact hnodup

theorem required_approvers_empty_of_no_active (db : DB)
    (h : activeDesIds db = []) : required_approvers db = [] := by
  unfold required_approvers
  have hf : db.profiles.filter (fun p =>
      isAdminStaff db p.username && designationActive db p.designation) = [] := by
    apply List.filter_eq_nil_iff.mpr
    intro p _
    have : designationActive db p.designation = false := by
      unfold designationActive
      cases p.designation with
      | none => rfl
      | some i => simp [h]
    simp [this]
  rw [hf]
  rfl

/-! ### Lemmas: approval consensus -/

theorem required_approvers_set_approvals (db : DB) (x : List ApprovalRec) :
    required_approvers { db with approvals := x } = required_approvers db := rfl

theorem required_approvers_update_status (db : DB) (vid : Nat) :
    required_approvers (update_status_if_all_approved db vid) =
      required_approvers db := by
  simp only [update_status_if_all_approved]
  split <;> rfl

theorem approvals_update_status (db : DB) (vid : Nat) :
    (update_status_if_all_approved db vid).approvals = db.approvals := by
  simp only [update_status_if_all_approved]
  split <;> rfl

/-- The `newStatus` value computed inside `_update_status_if_all_approved`:
`REJECTED` on any stored rejection, else `APPROVED` exactly when the stored
`APPROVED` count equals the size of the live required list, else `PENDING`. -/
def recomputedStatus (db : DB) (vid : Nat) : String :=
  if (voucherApprovals db vid).any (fun a => a.status == "REJECTED") then "REJECTED"
  else if ((voucherApprovals db vid).filter
      (fun a => a.status == "APPROVED")).length = (required_approvers db).length then
    "APPROVED"
  else "PENDING"

theorem update_status_eq (db : DB) (vid : Nat) :
    update_status_if_all_approved db vid =
      if (required_approvers db).isEmpty then db
      else
        { db with
          vouchers := db.vouchers.map (fun v =>
            if v.id == vid then { v with status := recomputedStatus db vid } else v) } := by
  simp only [update_status_if_all_approved, recomputedStatus]

theorem update_status_of_no_required (db : DB) (vid : Nat)
    (h : required_approvers db = []) :
    update_status_if_all_approved db vid = db := by
  unfold update_status_if_all_approved
  simp [h]

/-- The upserted row is present, carries the requested voucher id and the
new decision. -/
theorem upsert_mem_status (l : List ApprovalRec) (vid : Nat) (u st : String)
    (now : Nat) :
    ∃ a ∈ upsertApproval l vid u st now, a.voucherId = vid ∧ a.status = st := by
  unfold upsertApproval
  split
  · rename_i h
    obtain ⟨a0, ha0, hpa⟩ := List.any_eq_true.mp h
    rw [Bool.and_eq_true, beq_iff_eq, beq_iff_eq] at hpa
    refine ⟨{ a0 with status := st }, ?_, hpa.1, rfl⟩
    refine List.mem_map.mpr ⟨a0, ha0, ?_⟩
    simp [hpa.1, hpa.2]
  · exact ⟨⟨vid, u, st, now⟩, List.mem_append.mpr (.inr (by simp)), rfl, rfl⟩

/-- The status-update pass commutes with `find?` because it preserves ids. -/
theorem findVoucher_update_status (db : DB) (vid : Nat)
    (hne : (required_approvers db).isEmpty = false) :
    findVoucher (update_status_if_all_approved db vid) vid =
      (findVoucher db vid).map (fun v =>
        if v.id == vid then { v with status := recomputedStatus db vid } else v) := by
  rw [update_status_eq, hne]
  simp only [Bool.false_eq_true, if_false]
  unfold findVoucher
  rw [List.find?_map]
  have hp : ((fun v : VoucherRec => v.id == vid) ∘ (fun v =>
      if v.id == vid then { v with status := recomputedStatus db vid } else v)) =
      fun v : VoucherRec => v.id == vid := by
    funext v
    simp only [Function.comp_apply]
    split <;> simp_all
  rw [hp]

theorem recomputedStatus_update_status (db : DB) (vid : Nat) :
    recomputedStatus (update_status_if_all_approved db vid) vid =
      recomputedStatus db vid := by
  simp only [recomputedStatus, voucherApprovals, approvals_update_status,
    required_approvers_update_status]

/-- Number of stored approval rows for one (voucher, approver) pair. -/
def pairCount (l : List ApprovalRec) (vid : Nat) (u : String) : Nat :=
  (l.filter (fun a => a.voucherId == vid && a.approver == u)).length

/-- Effect of `update_or_create` on the (voucher, approver) pair, assuming
the `unique_together` constraint held beforehand: afterwards exactly one row
exists for the pair; it carries the new decision, and its `approved_at` is
the pre-existing row's timestamp when there was one, the current time
otherwise. -/
theorem upsert_pair (l : List ApprovalRec) (vid : Nat) (u st : String)
    (now : Nat) (huniq : pairCount l vid u ≤ 1) :
    pairCount (upsertApproval l vid u st now) vid u = 1 ∧
      findApproval (upsertApproval l vid u st now) vid u =
        some ⟨vid, u, st, ((findApproval l vid u).map (·.approvedAt)).getD now⟩ := by
  unfold upsertApproval
  split
  · rename_i hany
    obtain ⟨a0, ha0, hpa0⟩ := List.any_eq_true.mp hany
    have hp : ((fun a : ApprovalRec => a.voucherId == vid && a.approver == u) ∘
        (fun a => if a.voucherId == vid && a.approver == u then
          { a with status := st } else a)) =
        fun a : ApprovalRec => a.voucherId == vid && a.approver == u := by
      funext a
      simp only [Function.comp_apply]
      by_cases h : (a.voucherId == vid && a.approver == u) = true
      · rw [if_pos h]
      · rw [if_neg h]
    constructor
    · unfold pairCount
      rw [List.filter_map, hp, List.length_map]
      unfold pairCount at huniq
      have hpos : 0 <
          (l.filter (fun a => a.voucherId == vid && a.approver == u)).length :=
        List.length_pos.mpr (List.ne_nil_of_mem (List.mem_filter.mpr ⟨ha0, hpa0⟩))
      omega
    · unfold findApproval
      rw [List.find?_map, hp]
      cases hb : l.find? (fun a => a.voucherId == vid && a.approver == u) with
      | none =>
        exact absurd hpa0 (List.find?_eq_none.mp hb a0 ha0)
      | some b =>
        have hpb := List.find?_some hb
        rw [Bool.and_eq_true, beq_iff_eq, beq_iff_eq] at hpb
        cases b
        simp_all
  · rename_i hany
    have hall : ∀ a ∈ l, (a.voucherId == vid && a.approver == u) = false := by
      intro a ha
      cases hcase : (a.voucherId == vid && a.approver == u) with
      | false => rfl
      | true =>
        have hcontra : (l.any fun a => a.voucherId == vid && a.approver == u) =
            true := List.any_eq_true.mpr ⟨a, ha, hcase⟩
        exact absurd hcontra hany
    have hfilter : l.filter (fun a => a.voucherId == vid && a.approver == u) = [] :=
      List.filter_eq_nil_iff.mpr (fun a ha => by simp [hall a ha])
    have hfindnone : l.find? (fun a => a.voucherId == vid && a.approver == u) =
        none :=
      List.find?_eq_none.mpr (fun a ha => by simp [hall a ha])
    constructor
    · unfold pairCount
      rw [List.filter_append, hfilter]
      simp
    · unfold findApproval
      rw [List.find?_append, hfindnone]
      simp

/-! ### Lemmas: activation-set replacement -/

/-- Projection of the activation table onto (designation id, active flag) —
the "activation state" proper, leaving out the audit fields that
`update_or_create` stamps on every save. -/
def activePairs (l : List ActiveRec) : List (Nat × Bool) :=
  l.map (fun a => (a.designationId, a.isActive))

/-- A designation id has at least one row, and all its rows carry flag `b`. -/
def Settled (l : List ActiveRec) (did : Nat) (b : Bool) : Prop :=
  (∃ a ∈ l, a.designationId = did) ∧
    ∀ a ∈ l, a.designationId = did → a.isActive = b

theorem settled_upsert_self (l : List ActiveRec) (did : Nat) (b : Bool)
    (actor : String) (now : Nat) :
    Settled (upsertActive l did b actor now) did b := by
  unfold upsertActive Settled
  split
  · rename_i hany
    obtain ⟨a0, ha0, hpa0⟩ := List.any_eq_true.mp hany
    constructor
    · refine ⟨{ a0 with isActive := b, updatedBy := actor, updatedAt := now },
        List.mem_map.mpr ⟨a0, ha0, by simp [hpa0]⟩, by simpa using hpa0⟩
    · intro a ha had
      obtain ⟨a1, ha1, hfa1⟩ := List.mem_map.mp ha
      by_cases h1 : (a1.designationId == did) = true
      · rw [if_pos h1] at hfa1
        subst hfa1
        rfl
      · rw [if_neg h1] at hfa1
        subst hfa1
        exact absurd (by simpa using had) h1
  · constructor
    · exact ⟨⟨did, b, actor, now⟩, List.mem_append.mpr (.inr (by simp)), rfl⟩
    · intro a ha had
      rcases List.mem_append.mp ha with h | h
      · rename_i hany
        have hbeq : (a.designationId == did) = true := by simpa using had
        have hcontra : (l.any (·.designationId == did)) = true :=
          List.any_eq_true.mpr ⟨a, h, hbeq⟩
        exact absurd hcontra hany
      · simp only [List.mem_singleton] at h
        subst h
        rfl

theorem settled_upsert_other (l : List ActiveRec) (did did' : Nat) (b b' : Bool)
    (actor : String) (now : Nat) (hne : did' ≠ did) (hs : Settled l did b) :
    Settled (upsertActive l did' b' actor now) did b := by
  obtain ⟨⟨a0, ha0, ha0d⟩, hall⟩ := hs
  unfold upsertActive
  split
  · constructor
    · refine ⟨a0, List.mem_map.mpr ⟨a0, ha0, ?_⟩, ha0d⟩
      rw [if_neg]
      simp [ha0d, hne.symm]
    · intro a ha had
      obtain ⟨a1, ha1, hfa1⟩ := List.mem_map.mp ha
      by_cases h1 : (a1.designationId == did') = true
      · rw [if_pos h1] at hfa1
        subst hfa1
        simp only [beq_iff_eq] at h1
        exact absurd (show did' = did by simpa [h1] using had) hne
      · rw [if_neg h1] at hfa1
        subst hfa1
        exact hall _ ha1 had
  · constructor
    · exact ⟨a0, List.mem_append.mpr (.inl ha0), ha0d⟩
    · intro a ha had
      rcases List.mem_append.mp ha with h | h
      · exact hall a h had
      · simp only [List.mem_singleton] at h
        subst h
        exact absurd had hne

theorem activePairs_upsert_settled (l : List ActiveRec) (did : Nat) (b : Bool)
    (actor : String) (now : Nat) (hs : Settled l did b) :
    activePairs (upsertActive l did b actor now) = activePairs l := by
  obtain ⟨⟨a0, ha0, ha0d⟩, hall⟩ := hs
  unfold upsertActive
  rw [if_pos (List.any_eq_true.mpr ⟨a0, ha0, by simpa using ha0d⟩)]
  unfold activePairs
  rw [List.map_map]
  apply List.map_congr_left
  intro a ha
  by_cases h1 : (a.designationId == did) = true
  · have h1' : a.designationId = did := by simpa using h1
    have hb := hall a ha h1'
    simp [Function.comp_apply, h1', hb]
  · have h1' : ¬(a.designationId = did) := by simpa using h1
    simp [Function.comp_apply, h1']

/-- One fold step of `setActiveList` preserves settledness at the value the
replace loop assigns. -/
theorem settled_upsert_step (l : List ActiveRec) (did d : Nat) (ids : List Nat)
    (actor : String) (now : Nat) (hs : Settled l did (ids.contains did)) :
    Settled (upsertActive l d (ids.contains d) actor now) did (ids.contains did) := by
  by_cases h : d = did
  · subst h
    exact settled_upsert_self l d (ids.contains d) actor now
  · exact settled_upsert_other l did d (ids.contains did) (ids.contains d)
      actor now h hs

theorem settled_setActiveList_of_settled (des : List DesignationRec)
    (l : List ActiveRec) (did : Nat) (ids : List Nat) (actor : String) (now : Nat)
    (hs : Settled l did (ids.contains did)) :
    Settled (setActiveList des l ids actor now) did (ids.contains did) := by
  induction des generalizing l with
  | nil => exact hs
  | cons d rest ih =>
    exact ih _ (settled_upsert_step l did d.id ids actor now hs)

/-- After the replace loop, every listed designation is settled at the flag
the loop computes for it. -/
theorem settled_setActiveList (des : List DesignationRec) (l : List ActiveRec)
    (d : DesignationRec) (ids : List Nat) (actor : String) (now : Nat)
    (hd : d ∈ des) :
    Settled (setActiveList des l ids actor now) d.id (ids.contains d.id) := by
  induction des generalizing l with
  | nil => cases hd
  | cons d0 rest ih =>
    rcases List.mem_cons.mp hd with h | h
    · subst h
      exact settled_setActiveList_of_settled rest _ d.id ids actor now
        (settled_upsert_self l d.id (ids.contains d.id) actor now)
    · exact ih _ h

/-- A second identical replace pass leaves the activation state unchanged. -/
theorem activePairs_setActiveList_settled (des : List DesignationRec)
    (l : List ActiveRec) (ids : List Nat) (actor : String) (now : Nat)
    (hall : ∀ d ∈ des, Settled l d.id (ids.contains d.id)) :
    activePairs (setActiveList des l ids actor now) = activePairs l := by
  induction des generalizing l with
  | nil => rfl
  | cons d0 rest ih =>
    have hstep := activePairs_upsert_settled l d0.id (ids.contains d0.id)
      actor now (hall d0 (List.mem_cons_self _ _))
    have hrest : ∀ d ∈ rest,
        Settled (upsertActive l d0.id (ids.contains d0.id) actor now) d.id
          (ids.contains d.id) := fun d hd =>
      settled_upsert_step l d.id d0.id ids actor now
        (hall d (List.mem_cons_of_mem _ hd))
    calc activePairs (setActiveList rest
          (upsertActive l d0.id (ids.contains d0.id) actor now) ids actor now)
        = activePairs (upsertActive l d0.id (ids.contains d0.id) actor now) :=
          ih _ hrest
      _ = activePairs l := hstep

theorem activeDesIds_eq_pairs (l : List ActiveRec) :
    (l.filter (·.isActive)).map (·.designationId) =
      ((activePairs l).filter (·.2)).map (·.1) := by
  induction l with
  | nil => rfl
  | cons a rest ih =>
    unfold activePairs at ih ⊢
    cases h : a.isActive <;> simp [h, ih]

/-- `required_approvers` reads the store only through `users`, `profiles`
and the active designation ids. -/
theorem required_approvers_eq_of_parts (db db' : DB)
    (hu : db.users = db'.users) (hp : db.profiles = db'.profiles)
    (hi : activeDesIds db = activeDesIds db') :
    required_approvers db = required_approvers db' := by
  unfold required_approvers isAdminStaff designationActive
  rw [hu, hp, hi]

theorem activeDesIds_pairs (db : DB) :
    activeDesIds db = ((activePairs db.activeDes).filter (·.2)).map (·.1) :=
  activeDesIds_eq_pairs db.activeDes

/-! ### Concrete stores for witnesses and counterexamples -/

/-- A small concrete store: one active designation, one Admin-Staff approver
`u1` holding it, an accountant `acc`, a superuser `root`, and one pending
voucher. -/
def sampleDB : DB where
  users := [⟨"u1", ["Admin Staff"], false⟩, ⟨"acc", ["Accountants"], false⟩,
    ⟨"root", [], true⟩]
  profiles := [⟨"u1", some 1⟩]
  designations := [⟨1, "Manager"⟩]
  activeDes := [⟨1, true, "root", 0⟩]
  vouchers := [⟨1, "VCH0001", "2024-01-01", "CASH", "MR", "Alice", none,
    some "r.pdf", "acc", "PENDING"⟩]
  particulars := []
  approvals := []

/-- `sampleDB` with the only designation switched off. -/
def sampleNoActiveDB : DB :=
  { sampleDB with activeDes := [⟨1, false, "root", 0⟩] }

/-- The store after `u1` records a REJECTED decision on voucher 1 of
`sampleDB` (the fallback arm is never taken). -/
def sampleRejectedDB : DB :=
  match recordDecision sampleDB "u1" 1 "REJECTED" 7 with
  | .ok p => p.1
  | .error _ => sampleDB

/-- Voucher 1 as stored in `sampleRejectedDB`. -/
def sampleRejectedVoucher : VoucherRec :=
  (findVoucher sampleRejectedDB 1).getD default

/-- `sampleDB` with an approval by `u1` already stored at time 5. -/
def sampleOldApprovalDB : DB :=
  { sampleDB with approvals := [⟨1, "u1", "APPROVED", 5⟩] }

/-- The store after `u1` changes the stored decision to REJECTED at time 9
(the fallback arm is never taken). -/
def sampleReapprovedDB : DB :=
  match recordDecision sampleOldApprovalDB "u1" 1 "REJECTED" 9 with
  | .ok p => p.1
  | .error _ => sampleOldApprovalDB

/-- `sampleDB` plus an Admin-Staff user `u2` who holds no designation and is
therefore never in the required-approver list. -/
def sampleExtraStaffDB : DB :=
  { sampleDB with users := sampleDB.users ++ [⟨"u2", ["Admin Staff"], false⟩] }

/-- `sampleDB` after `root` replaces the active set with the empty list
(the fallback arm is never taken). -/
def sampleDeactivatedDB : DB :=
  match setActiveSet sampleDB [] "root" 3 with
  | .ok d => d
  | .error _ => sampleDB

/-- `sampleDeactivatedDB` after the identical call is repeated. -/
def sampleDeactivatedTwiceDB : DB :=
  match setActiveSet sampleDeactivatedDB [] "root" 4 with
  | .ok d => d
  | .error _ => sampleDeactivatedDB

/-! ### Claims about approver resolution -/

/-- C2: for every state of the active-designation set, `required_approvers`
is exactly the set of usernames of Admin-Staff users whose profile
designation is active, without duplicate usernames (given the one-to-one
profile constraint), identically for every voucher, and empty when no
designation is active. -/
theorem claim_C2 (db : DB) (u : String)
    (huniq : (db.profiles.map (·.username)).Nodup) :
    (u ∈ required_approvers db ↔
      isAdminStaff db u = true ∧
        ∃ p ∈ db.profiles, p.username = u ∧ designationActive db p.designation = true) ∧
    (required_approvers db).Nodup ∧
    (activeDesIds db = [] → required_approvers db = []) ∧
    (∀ v w : VoucherRec, voucherRequiredApprovers db v = voucherRequiredApprovers db w) :=
  ⟨mem_required_approvers db u, required_approvers_nodup db huniq,
    required_approvers_empty_of_no_active db, fun _ _ => rfl⟩

/-- Witness for C2 at a concrete store. -/
theorem claim_C2_witness :
    "u1" ∈ required_approvers sampleDB ∧ (required_approvers sampleDB).Nodup ∧
      required_approvers sampleNoActiveDB = [] :=
  ⟨(claim_C2 sampleDB "u1" (by decide)).1.mpr
      ⟨by decide, ⟨"u1", some 1⟩, by decide, rfl, by decide⟩,
    (claim_C2 sampleDB "u1" (by decide)).2.1,
    (claim_C2 sampleNoActiveDB "u1" (by decide)).2.2.1 (by decide)⟩

/-! ### Claims about approval consensus -/

/-- C1: after a successful `recordDecision` the voucher's status follows the
full recomputation rule — an empty required list leaves the status untouched;
otherwise any stored REJECTED decision forces status REJECTED, and status is
APPROVED iff the stored APPROVED count equals the live required count
(PENDING otherwise).  In particular a REJECTED decision recorded by a
required approver always drives the status to REJECTED. -/
theorem claim_C1 :
    (∀ (db : DB) (vid : Nat), required_approvers db = [] →
      update_status_if_all_approved db vid = db) ∧
    (∀ (db : DB) (actor : String) (vid : Nat) (decision : String) (now : Nat)
        (db' : DB) (ts : Nat) (v' : VoucherRec),
      recordDecision db actor vid decision now = .ok (db', ts) →
      findVoucher db' vid = some v' →
      required_approvers db' ≠ [] ∧
      v'.status = recomputedStatus db' vid ∧
      (decision = "REJECTED" → v'.status = "REJECTED")) := by
  refine ⟨fun db vid h => update_status_of_no_required db vid h, ?_⟩
  intro db actor vid decision now db' ts v' hok hfind
  unfold recordDecision at hok
  split at hok
  · exact absurd hok (by simp)
  · split at hok
    · exact absurd hok (by simp)
    · rename_i v0 hv0
      split at hok
      · exact absurd hok (by simp)
      · split at hok
        · exact absurd hok (by simp)
        · rename_i hreqb
          simp only [Except.ok.injEq, Prod.mk.injEq] at hok
          obtain ⟨hdb, hts⟩ := hok
          subst hdb
          have hmem : actor ∈ required_approvers db := by
            simp at hreqb
            exact hreqb
          have hne : (required_approvers
              { db with approvals :=
                upsertApproval db.approvals vid actor decision now }).isEmpty = false := by
            rw [required_approvers_set_approvals, List.isEmpty_eq_false]
            exact List.ne_nil_of_mem hmem
          rw [findVoucher_update_status _ vid hne] at hfind
          have hfv : findVoucher
              { db with approvals :=
                upsertApproval db.approvals vid actor decision now } vid =
              findVoucher db vid := rfl
          rw [hfv, hv0] at hfind
          have hid : (v0.id == vid) = true := by
            have := List.find?_some hv0
            simpa using this
          simp [hid] at hfind
          subst hfind
          have hideq : v0.id = vid := by simpa using hid
          refine ⟨?_, ?_, ?_⟩
          · rw [required_approvers_update_status, required_approvers_set_approvals]
            exact List.ne_nil_of_mem hmem
          · rw [recomputedStatus_update_status]
            simp [hideq]
          · intro hdec
            subst hdec
            rw [if_pos hideq]
            obtain ⟨a, ha, hav, hast⟩ :=
              upsert_mem_status db.approvals vid actor "REJECTED" now
            have hrej : ((voucherApprovals
                { db with approvals :=
                  upsertApproval db.approvals vid actor "REJECTED" now } vid).any
                (fun a => a.status == "REJECTED")) = true := by
              apply List.any_eq_true.mpr
              refine ⟨a, ?_, by simp [hast]⟩
              apply List.mem_filter.mpr
              exact ⟨ha, by simp [hav]⟩
            simp only [recomputedStatus, hrej, if_true]

/-- Witness for C1: `u1` rejects the pending voucher of `sampleDB`; the
status recomputes to REJECTED. -/
theorem claim_C1_witness :
    required_approvers sampleRejectedDB ≠ [] ∧
      sampleRejectedVoucher.status = recomputedStatus sampleRejectedDB 1 ∧
      ("REJECTED" = "REJECTED" → sampleRejectedVoucher.status = "REJECTED") :=
  claim_C1.2 sampleDB "u1" 1 "REJECTED" 7 sampleRejectedDB 7 sampleRejectedVoucher
    rfl (by decide)

/-- C3 counterexample: the claim asserts a fresh timestamp on upsert, but
`approved_at` has `auto_now_add=True`, so re-deciding at time 9 keeps the
stored time 5 of the first decision. -/
theorem claim_C3_counterexample :
    (recordDecision sampleOldApprovalDB "u1" 1 "REJECTED" 9).map
        (fun p => ((findApproval p.1.approvals 1 "u1").map (·.approvedAt), p.2)) =
      .ok (some 5, 5) ∧ (5 : Nat) ≠ 9 :=
  ⟨rfl, by decide⟩

/-- C3 (amended): `recordDecision` upserts the (voucher, approver) approval
row — afterwards exactly one row exists for the pair and it carries the new
decision — but its timestamp is the time of the pair's FIRST decision: it is
set to the current time only when no prior row existed and is preserved on
overwrite. -/
theorem claim_C3 (db : DB) (actor : String) (vid : Nat) (decision : String)
    (now : Nat) (db' : DB) (ts : Nat)
    (huniq : pairCount db.approvals vid actor ≤ 1)
    (hok : recordDecision db actor vid decision now = .ok (db', ts)) :
    pairCount db'.approvals vid actor = 1 ∧
      findApproval db'.approvals vid actor =
        some ⟨vid, actor, decision,
          ((findApproval db.approvals vid actor).map (·.approvedAt)).getD now⟩ ∧
      ts = ((findApproval db.approvals vid actor).map (·.approvedAt)).getD now := by
  unfold recordDecision at hok
  split at hok
  · exact absurd hok (by simp)
  · split at hok
    · exact absurd hok (by simp)
    · split at hok
      · exact absurd hok (by simp)
      · split at hok
        · exact absurd hok (by simp)
        · simp only [Except.ok.injEq, Prod.mk.injEq] at hok
          obtain ⟨hdb, hts⟩ := hok
          subst hdb
          have happ : (update_status_if_all_approved
              { db with approvals :=
                upsertApproval db.approvals vid actor decision now }
              vid).approvals =
              upsertApproval db.approvals vid actor decision now :=
            approvals_update_status _ vid
          obtain ⟨hcount, hfind⟩ :=
            upsert_pair db.approvals vid actor decision now huniq
          refine ⟨?_, ?_, ?_⟩
          · unfold pairCount
            rw [happ]
            exact hcount
          · rw [happ]
            exact hfind
          · rw [happ, hfind] at hts
            simpa using hts.symm

/-- Witness for the amended C3: `u1` re-decides at time 9; the single stored
row carries the new decision with the original timestamp 5. -/
theorem claim_C3_witness :
    pairCount sampleReapprovedDB.approvals 1 "u1" = 1 ∧
      findApproval sampleReapprovedDB.approvals 1 "u1" =
        some ⟨1, "u1", "REJECTED",
          ((findApproval sampleOldApprovalDB.approvals 1 "u1").map
            (·.approvedAt)).getD 9⟩ ∧
      (5 : Nat) = ((findApproval sampleOldApprovalDB.approvals 1 "u1").map
        (·.approvedAt)).getD 9 :=
  claim_C3 sampleOldApprovalDB "u1" 1 "REJECTED" 9 sampleReapprovedDB 5
    (by decide) rfl

/-- C9 counterexample: `u2` is Admin Staff but not in the live required
set, and submits the invalid decision value `"MAYBE"`; the code reports the
400 invalid-choice validation error, not the 403 Forbidden the claim
demands. -/
theorem claim_C9_counterexample :
    recordDecision sampleExtraStaffDB "u2" 1 "MAYBE" 0 =
        .error .invalidStatus ∧
      ApiError.invalidStatus ≠ ApiError.notRequiredApprover :=
  ⟨rfl, by decide⟩

/-- C9 (amended): for a caller who passes the Admin-Staff mixin but is not
in the live required-approver set, the decision-value validation runs FIRST:
the request fails Forbidden only when the submitted decision value is valid;
with an invalid decision value the 400 invalid-choice error is returned
instead. -/
theorem claim_C9 (db : DB) (actor : String) (vid : Nat) (decision : String)
    (now : Nat) (v : VoucherRec)
    (hrole : (isAdminStaff db actor || isSuperuser db actor) = true)
    (hv : findVoucher db vid = some v)
    (hnotreq : (required_approvers db).contains actor = false) :
    (((["APPROVED", "REJECTED"] : List String).contains decision) = true →
      recordDecision db actor vid decision now = .error .notRequiredApprover) ∧
    (((["APPROVED", "REJECTED"] : List String).contains decision) = false →
      recordDecision db actor vid decision now = .error .invalidStatus) := by
  constructor
  · intro hd
    have hdm : decision = "APPROVED" ∨ decision = "REJECTED" := by simpa using hd
    have hnm : actor ∉ required_approvers db := by simpa using hnotreq
    rcases hdm with h | h <;> subst h <;> simp [recordDecision, hrole, hv, hnm]
  · intro hd
    have hdm : ¬(decision = "APPROVED" ∨ decision = "REJECTED") := by
      simpa using hd
    push_neg at hdm
    simp [recordDecision, hrole, hv, hdm.1, hdm.2]

/-- Witness for the amended C9 at a concrete store. -/
theorem claim_C9_witness :
    ((["APPROVED", "REJECTED"] : List String).contains "APPROVED" = true →
      recordDecision sampleExtraStaffDB "u2" 1 "APPROVED" 0 =
        .error .notRequiredApprover) ∧
    ((["APPROVED", "REJECTED"] : List String).contains "APPROVED" = false →
      recordDecision sampleExtraStaffDB "u2" 1 "APPROVED" 0 =
        .error .invalidStatus) :=
  claim_C9 sampleExtraStaffDB "u2" 1 "APPROVED" 0
    ⟨1, "VCH0001", "2024-01-01", "CASH", "MR", "Alice", none, some "r.pdf",
      "acc", "PENDING"⟩
    (by decide) (by decide) (by decide)

/-! ### Claim about activation replacement -/

/-- C5: `setActiveSet` is a full replace and idempotent: after one call,
every existing designation has an activation row, all its rows are active
iff its id is listed (unlisted designations become inactive); a second
identical call yields the same activation state — the same (designation id,
flag) pairs — and hence the same `required_approvers` result for every
voucher. -/
theorem claim_C5 (db : DB) (ids : List Nat) (actor : String) (t1 t2 : Nat)
    (db1 db2 : DB)
    (h1 : setActiveSet db ids actor t1 = .ok db1)
    (h2 : setActiveSet db1 ids actor t2 = .ok db2) :
    (∀ d ∈ db.designations,
      (∃ a ∈ db1.activeDes, a.designationId = d.id) ∧
      ∀ a ∈ db1.activeDes, a.designationId = d.id →
        (a.isActive = true ↔ d.id ∈ ids)) ∧
    activePairs db2.activeDes = activePairs db1.activeDes ∧
    required_approvers db2 = required_approvers db1 := by
  unfold setActiveSet at h1 h2
  split at h1
  · exact absurd h1 (by simp)
  · split at h2
    · exact absurd h2 (by simp)
    · simp only [Except.ok.injEq] at h1 h2
      have hu1 : db1.users = db.users := by rw [← h1]
      have hp1 : db1.profiles = db.profiles := by rw [← h1]
      have hdes1 : db1.designations = db.designations := by rw [← h1]
      have hd1 : db1.activeDes =
          setActiveList db.designations db.activeDes ids actor t1 := by rw [← h1]
      have hu2 : db2.users = db1.users := by rw [← h2]
      have hp2 : db2.profiles = db1.profiles := by rw [← h2]
      have hd2 : db2.activeDes =
          setActiveList db1.designations db1.activeDes ids actor t2 := by rw [← h2]
      have hsettled : ∀ d ∈ db.designations,
          Settled (setActiveList db.designations db.activeDes ids actor t1) d.id
            (ids.contains d.id) := fun d hd =>
        settled_setActiveList db.designations db.activeDes d ids actor t1 hd
      have hpairs : activePairs db2.activeDes = activePairs db1.activeDes := by
        rw [hd2, hdes1, hd1]
        exact activePairs_setActiveList_settled db.designations _ ids actor t2
          hsettled
      refine ⟨?_, hpairs, ?_⟩
      · intro d hd
        obtain ⟨hex, hall⟩ := hsettled d hd
        rw [hd1]
        refine ⟨hex, fun a ha had => ?_⟩
        rw [hall a ha had]
        simp
      · refine required_approvers_eq_of_parts db2 db1 (hu2) (hp2) ?_
        rw [activeDesIds_pairs, activeDesIds_pairs, hpairs]

/-- Witness for C5: deactivating everything twice in a row on `sampleDB`
gives the same activation state and required list as doing it once. -/
theorem claim_C5_witness :
    activePairs sampleDeactivatedTwiceDB.activeDes =
        activePairs sampleDeactivatedDB.activeDes ∧
      required_approvers sampleDeactivatedTwiceDB =
        required_approvers sampleDeactivatedDB :=
  (claim_C5 sampleDB [] "root" 3 4 sampleDeactivatedDB sampleDeactivatedTwiceDB
    rfl rfl).2

/-- C10: the two independent required-approver computations — the model
property (via `UserProfile`) and the serializer method (via `User`) — agree
as sets of usernames on every database state. -/
theorem claim_C10 (db : DB) (u : String) :
    u ∈ required_approvers db ↔ u ∈ get_required_approvers db :=
  (mem_required_approvers db u).trans (mem_get_required_approvers db u).symm

/-! ### Lemmas: decimal digits and voucher numbering -/

theorem digitChar_isDigit (x : Nat) (h : x < 10) :
    (digitChar x).isDigit = true := by
  interval_cases x <;> decide

theorem digitChar_val (x : Nat) (h : x < 10) : (digitChar x).toNat - 48 = x := by
  interval_cases x <;> decide

theorem natDigitsAux_acc (n : Nat) (acc : List Char) :
    natDigitsAux n acc = natDigitsAux n [] ++ acc := by
  induction n using Nat.strong_induction_on generalizing acc with
  | _ n ih =>
    by_cases h : n = 0
    · subst h
      rw [natDigitsAux, dif_pos rfl,
        show natDigitsAux 0 [] = [] from by rw [natDigitsAux, dif_pos rfl]]
      rfl
    · rw [natDigitsAux, dif_neg h,
        ih (n / 10) (Nat.div_lt_self (Nat.pos_of_ne_zero h) (by omega))]
      conv_rhs => rw [natDigitsAux, dif_neg h,
        ih (n / 10) (Nat.div_lt_self (Nat.pos_of_ne_zero h) (by omega))]
      rw [List.append_assoc]
      rfl

theorem natDigitsAux_digits (n : Nat) :
    ∀ c ∈ natDigitsAux n [], c.isDigit = true := by
  induction n using Nat.strong_induction_on with
  | _ n ih =>
    intro c hc
    by_cases h : n = 0
    · rw [natDigitsAux, dif_pos h] at hc
      cases hc
    · rw [natDigitsAux, dif_neg h, natDigitsAux_acc] at hc
      rcases List.mem_append.mp hc with h1 | h1
      · exact ih (n / 10) (Nat.div_lt_self (Nat.pos_of_ne_zero h) (by omega)) c h1
      · simp only [List.mem_singleton] at h1
        subst h1
        exact digitChar_isDigit (n % 10) (Nat.mod_lt _ (by omega))

theorem valDigits_append_one (l : List Char) (c : Char) :
    valDigits (l ++ [c]) = valDigits l * 10 + (c.toNat - 48) := by
  unfold valDigits
  rw [List.foldl_append]
  rfl

theorem valDigits_natDigitsAux (n : Nat) : valDigits (natDigitsAux n []) = n := by
  induction n using Nat.strong_induction_on with
  | _ n ih =>
    by_cases h : n = 0
    · rw [natDigitsAux, dif_pos h, h]
      rfl
    · rw [natDigitsAux, dif_neg h, natDigitsAux_acc, valDigits_append_one,
        ih (n / 10) (Nat.div_lt_self (Nat.pos_of_ne_zero h) (by omega)),
        digitChar_val (n % 10) (Nat.mod_lt _ (by omega))]
      omega

theorem natDigits_ne_nil (n : Nat) : natDigits n ≠ [] := by
  unfold natDigits
  by_cases h : n = 0
  · simp [h]
  · rw [if_neg h, natDigitsAux, dif_neg h, natDigitsAux_acc]
    simp

theorem natDigits_digits (n : Nat) : ∀ c ∈ natDigits n, c.isDigit = true := by
  unfold natDigits
  by_cases h : n = 0
  · rw [if_pos h]
    intro c hc
    simp only [List.mem_singleton] at hc
    subst hc
    decide
  · rw [if_neg h]
    exact natDigitsAux_digits n

theorem valDigits_natDigits (n : Nat) : valDigits (natDigits n) = n := by
  unfold natDigits
  by_cases h : n = 0
  · rw [if_pos h, h]
    rfl
  · rw [if_neg h]
    exact valDigits_natDigitsAux n

theorem valDigits_replicate_append (k : Nat) (l : List Char) :
    valDigits (List.replicate k '0' ++ l) = valDigits l := by
  induction k with
  | zero => rfl
  | succ k ih =>
    rw [List.replicate_succ, List.cons_append]
    unfold valDigits
    rw [List.foldl_cons]
    have h0 : (0 * 10 + ('0'.toNat - 48)) = 0 := by decide
    rw [h0]
    exact ih

theorem pyInt_pad (k n : Nat) :
    pyInt (String.mk (List.replicate k '0' ++ natDigits n)) = some n := by
  unfold pyInt
  rw [if_pos]
  · rw [show (String.mk (List.replicate k '0' ++ natDigits n)).data =
      List.replicate k '0' ++ natDigits n from rfl,
      valDigits_replicate_append, valDigits_natDigits]
  · constructor
    · simp [natDigits_ne_nil n]
    · rw [List.all_eq_true]
      intro c hc
      rcases List.mem_append.mp hc with h | h
      · rw [List.eq_of_mem_replicate h]
        decide
      · exact natDigits_digits n c h

theorem pyInt_pad4 (n : Nat) : pyInt (String.mk (pad4 n)) = some n :=
  pyInt_pad (4 - (natDigits n).length) n

theorem mkVoucherNumber_take (n : Nat) :
    (mkVoucherNumber n).data.take 3 = vchChars := rfl

theorem natDigits_one : natDigits 1 = ['1'] := by
  rw [natDigits, if_neg (by omega), natDigitsAux, dif_neg (by omega),
    natDigitsAux, dif_pos (by norm_num : (1 : Nat) / 10 = 0)]
  decide

theorem mkVoucherNumber_one : mkVoucherNumber 1 = "VCH0001" := by
  rw [mkVoucherNumber, pad4, natDigits_one]
  decide

theorem mkVoucherNumber_suffix (n : Nat) :
    pyInt (String.mk ((mkVoucherNumber n).data.drop 3)) = some n :=
  pyInt_pad4 n

theorem foldl_max_init_le {α : Type} (f : α → Nat) (l : List α) (a : Nat) :
    a ≤ l.foldl (fun m y => max m (f y)) a := by
  induction l generalizing a with
  | nil => exact Nat.le_refl a
  | cons b t ih => exact Nat.le_trans (Nat.le_max_left a (f b)) (ih _)

theorem foldl_max_le_of_mem {α : Type} (f : α → Nat) (l : List α) (a : Nat)
    (x : α) (hx : x ∈ l) : f x ≤ l.foldl (fun m y => max m (f y)) a := by
  induction l generalizing a with
  | nil => cases hx
  | cons b t ih =>
    rcases List.mem_cons.mp hx with h | h
    · subst h
      exact Nat.le_trans (Nat.le_max_right a (f x)) (foldl_max_init_le f t _)
    · exact ih _ h

theorem foldl_max_le {α : Type} (f : α → Nat) (l : List α) (a b : Nat)
    (ha : a ≤ b) (hall : ∀ x ∈ l, f x ≤ b) :
    l.foldl (fun m y => max m (f y)) a ≤ b := by
  induction l generalizing a with
  | nil => exact ha
  | cons c t ih =>
    apply ih
    · exact Nat.max_le.mpr ⟨ha, hall c (List.mem_cons_self c t)⟩
    · exact fun x hx => hall x (List.mem_cons_of_mem _ hx)

/-- The fold inside `lastVoucher`, started from a present accumulator,
returns an element with the largest id. -/
theorem lastVoucher_foldl (vs : List VoucherRec) (w0 : VoucherRec) :
    ∃ w, vs.foldl (fun acc v =>
        match acc with
        | none => some v
        | some u => if u.id < v.id then some v else some u) (some w0) = some w ∧
      (w = w0 ∨ w ∈ vs) ∧ w0.id ≤ w.id ∧ ∀ v ∈ vs, v.id ≤ w.id := by
  induction vs generalizing w0 with
  | nil => exact ⟨w0, rfl, .inl rfl, Nat.le_refl _, fun v hv => absurd hv (by simp)⟩
  | cons v t ih =>
    by_cases h : w0.id < v.id
    · obtain ⟨w, hw, hmem, hle, hall⟩ := ih v
      refine ⟨w, ?_, ?_, Nat.le_trans (Nat.le_of_lt h) hle, ?_⟩
      · rw [List.foldl_cons]
        simpa [h] using hw
      · rcases hmem with h1 | h1
        · exact .inr (h1 ▸ List.mem_cons_self v t)
        · exact .inr (List.mem_cons_of_mem _ h1)
      · intro x hx
        rcases List.mem_cons.mp hx with h1 | h1
        · exact h1 ▸ hle
        · exact hall x h1
    · obtain ⟨w, hw, hmem, hle, hall⟩ := ih w0
      refine ⟨w, ?_, ?_, hle, ?_⟩
      · rw [List.foldl_cons]
        simpa [h] using hw
      · rcases hmem with h1 | h1
        · exact .inl h1
        · exact .inr (List.mem_cons_of_mem _ h1)
      · intro x hx
        rcases List.mem_cons.mp hx with h1 | h1
        · subst h1
          exact Nat.le_trans (Nat.le_of_not_lt h) hle
        · exact hall x h1

/-- `order_by('-id').first()` on a non-empty table returns a stored voucher
whose id dominates every other row's id. -/
theorem lastVoucher_max (v0 : VoucherRec) (t : List VoucherRec) :
    ∃ w, lastVoucher (v0 :: t) = some w ∧ w ∈ v0 :: t ∧
      ∀ v ∈ v0 :: t, v.id ≤ w.id := by
  obtain ⟨w, hw, hmem, hle0, hall⟩ := lastVoucher_foldl t v0
  refine ⟨w, ?_, ?_, ?_⟩
  · unfold lastVoucher
    rw [List.foldl_cons]
    exact hw
  · rcases hmem with h1 | h1
    · exact h1 ▸ List.mem_cons_self v0 t
    · exact List.mem_cons_of_mem _ h1
  · intro v hv
    rcases List.mem_cons.mp hv with h1 | h1
    · exact h1 ▸ hle0
    · exact hall v h1

/-- Largest numeric suffix among the stored vouchers. -/
def maxSuffix (vs : List VoucherRec) : Nat :=
  vs.foldl (fun m v => max m ((suffixOf v).getD 0)) 0

/-- Reachability invariant of the voucher table: every stored number starts
with `VCH` and has a parsable numeric suffix, and suffixes are monotone in
the auto-increment id.  Every store produced by the application itself
satisfies this (numbers are only assigned by `Voucher.save`), and the
invariant is preserved by creation — see `claim_C7`. -/
def WellNumbered (vs : List VoucherRec) : Prop :=
  (∀ v ∈ vs, v.voucherNumber.data.take 3 = vchChars ∧
    (suffixOf v).isSome = true) ∧
  (∀ v ∈ vs, ∀ w ∈ vs, v.id ≤ w.id →
    (suffixOf v).getD 0 ≤ (suffixOf w).getD 0)

/-! ### Lemmas: stripping -/

theorem dropWhile_head_false {α : Type} (p : α → Bool) (l : List α) (c : α)
    (t : List α) (h : l.dropWhile p = c :: t) : p c = false := by
  induction l with
  | nil => simp at h
  | cons a rest ih =>
    rw [List.dropWhile_cons] at h
    split at h
    · exact ih h
    · rename_i hpa
      obtain ⟨h1, h2⟩ := List.cons_eq_cons.mp h
      subst h1
      cases hb : p a with
      | false => rfl
      | true => exact absurd hb hpa

theorem getLast?_dropWhile {α : Type} (p : α → Bool) (l : List α) :
    l.dropWhile p = [] ∨ (l.dropWhile p).getLast? = l.getLast? := by
  induction l with
  | nil => exact .inl rfl
  | cons a rest ih =>
    rw [List.dropWhile_cons]
    split
    · by_cases hr : rest.dropWhile p = []
      · exact .inl hr
      · right
        rcases ih with h | h
        · exact absurd h hr
        · rw [h]
          cases rest with
          | nil => simp at hr
          | cons b t => exact (List.getLast?_cons_cons).symm
    · exact .inr rfl

theorem dropWhile_eq_self_of_head {α : Type} (p : α → Bool) (l : List α)
    (h : ∀ c, l.head? = some c → p c = false) : l.dropWhile p = l := by
  cases l with
  | nil => rfl
  | cons a t =>
    rw [List.dropWhile_cons, if_neg]
    simp [h a rfl]

theorem stripChars_idem (l : List Char) :
    stripChars (stripChars l) = stripChars l := by
  unfold stripChars
  have h1 : ((l.dropWhile isPySpace).reverse.dropWhile isPySpace).reverse.dropWhile
      isPySpace =
      ((l.dropWhile isPySpace).reverse.dropWhile isPySpace).reverse := by
    apply dropWhile_eq_self_of_head
    intro c hc
    rw [List.head?_reverse] at hc
    rcases getLast?_dropWhile isPySpace (l.dropWhile isPySpace).reverse with h | h
    · rw [h] at hc
      simp at hc
    · rw [h, List.getLast?_reverse] at hc
      cases hA : l.dropWhile isPySpace with
      | nil => rw [hA] at hc; simp at hc
      | cons a t =>
        rw [hA] at hc
        simp only [List.head?_cons, Option.some.injEq] at hc
        subst hc
        exact dropWhile_head_false isPySpace l a t hA
  rw [h1, List.reverse_reverse]
  have h2 : ((l.dropWhile isPySpace).reverse.dropWhile isPySpace).dropWhile
      isPySpace =
      (l.dropWhile isPySpace).reverse.dropWhile isPySpace := by
    apply dropWhile_eq_self_of_head
    intro c hc
    cases hB : (l.dropWhile isPySpace).reverse.dropWhile isPySpace with
    | nil => rw [hB] at hc; simp at hc
    | cons b t =>
      rw [hB] at hc
      simp only [List.head?_cons, Option.some.injEq] at hc
      subst hc
      exact dropWhile_head_false isPySpace (l.dropWhile isPySpace).reverse b t hB
  rw [h2]

theorem pyStrip_idem (s : String) : pyStrip (pyStrip s) = pyStrip s := by
  unfold pyStrip
  rw [show (String.mk (stripChars s.data)).data = stripChars s.data from rfl,
    stripChars_idem]

/-! ### Lemmas: submission -/

/-- Anatomy of a successful submission: validation succeeded, and the
persisted voucher is built from the validated data with the next sequential
number, a fresh id, status `PENDING`, and is appended to the voucher
table. -/
theorem submit_ok (db : DB) (req : SubmitReq) (v : VoucherRec)
    (h : (submit db req).2 = .ok v) :
    ∃ vd, validateSubmission db req = .ok vd ∧
      nextVoucherNumber db.vouchers = some v.voucherNumber ∧
      v.chequeNumber = vd.chequeNumber ∧
      v.status = "PENDING" ∧
      v.id = newVoucherId db.vouchers ∧
      (submit db req).1.vouchers = db.vouchers ++ [v] := by
  unfold submit at h ⊢
  cases hv : validateSubmission db req with
  | error e0 =>
    rw [hv] at h
    exact absurd h (by simp)
  | ok vd =>
    rw [hv] at h
    dsimp only at h ⊢
    unfold persistSubmission at h ⊢
    cases hn : nextVoucherNumber db.vouchers with
    | none =>
      rw [hn] at h
      exact absurd h (by simp)
    | some vn =>
      rw [hn] at h
      dsimp only at h ⊢
      simp only [Except.ok.injEq] at h
      subst h
      exact ⟨vd, rfl, rfl, rfl, rfl, rfl, rfl⟩

/-- What a successful validation says about the cheque number: the stored
value is the stripped submitted value for CHEQUE payments (forced `none`
otherwise), and for CHEQUE payments the stripped value is non-empty and
all digits. -/
theorem validate_ok_cheque (db : DB) (req : SubmitReq) (vd : ValidatedSubmission)
    (hok : validateSubmission db req = .ok vd) :
    vd.chequeNumber = (if req.paymentType = "CHEQUE"
        then some (pyStrip req.chequeNumberRaw) else none) ∧
    (req.paymentType = "CHEQUE" →
      pyStrip req.chequeNumberRaw ≠ "" ∧
      ((pyStrip req.chequeNumberRaw).data.all (·.isDigit)) = true) := by
  unfold validateSubmission at hok
  cases hacc : isAccountant db req.actor with
  | false =>
    rw [hacc, if_pos (show ((!false) = true) from rfl)] at hok
    exact Except.noConfusion hok
  | true =>
    rw [hacc, if_neg (show ¬((!true) = true) from by decide)] at hok
    cases hbp : buildParticulars req.particulars 0 with
    | error e =>
      rw [hbp] at hok
      dsimp only at hok
      exact Except.noConfusion hok
    | ok parts =>
      rw [hbp] at hok
      dsimp only at hok
      cases hemp : parts.isEmpty with
      | true =>
        rw [if_pos hemp] at hok
        exact Except.noConfusion hok
      | false =>
        rw [if_neg (by simp [hemp])] at hok
        cases hatt : req.attachment with
        | none =>
          rw [hatt] at hok
          dsimp only at hok
          exact Except.noConfusion hok
        | some att =>
          rw [hatt] at hok
          dsimp only at hok
          cases hpt : (["CASH", "CHEQUE", "PETTY_CASH"] :
              List String).contains req.paymentType with
          | false =>
            rw [hpt, if_pos (show ((!false) = true) from rfl)] at hok
            exact Except.noConfusion hok
          | true =>
            rw [hpt, if_neg (show ¬((!true) = true) from by decide)] at hok
            cases htt : (["MR", "MRS", "MS"] :
                List String).contains req.nameTitle with
            | false =>
              rw [htt, if_pos (show ((!false) = true) from rfl)] at hok
              exact Except.noConfusion hok
            | true =>
              rw [htt, if_neg (show ¬((!true) = true) from by decide)] at hok
              by_cases hcheq : req.paymentType = "CHEQUE"
              · simp only [if_pos hcheq, Option.getD_some, pyStrip_idem] at hok
                split at hok
                · exact Except.noConfusion hok
                · split at hok
                  · split at hok <;> exact Except.noConfusion hok
                  · split at hok
                    · exact Except.noConfusion hok
                    · split at hok
                      · exact Except.noConfusion hok
                      · split at hok
                        · exact Except.noConfusion hok
                        · split at hok
                          · exact Except.noConfusion hok
                          · rename_i hnonempty hdigits
                            simp only [Except.ok.injEq] at hok
                            subst hok
                            refine ⟨by rw [if_pos hcheq], fun _ =>
                              ⟨hnonempty, by simpa using hdigits⟩⟩
              · simp only [if_neg hcheq] at hok
                split at hok
                · exact Except.noConfusion hok
                · split at hok
                  · split at hok <;> exact Except.noConfusion hok
                  · split at hok
                    · exact Except.noConfusion hok
                    · split at hok
                      · exact Except.noConfusion hok
                      · simp only [Except.ok.injEq] at hok
                        subst hok
                        exact ⟨by rw [if_neg hcheq], fun hc => absurd hc hcheq⟩

/-- A form item the view loop silently skips: empty stripped description or
empty stripped amount (views.py only processes items with `desc and amt`). -/
def partSkipped (p : PartInput) : Prop :=
  pyStrip p.description = "" ∨ pyStrip p.amount = ""

/-- A form item whose amount parses to a positive decimal. -/
def partAccepted (p : PartInput) : Prop :=
  ∃ q, parseDecimal (pyStrip p.amount) = some q ∧ 0 < q

/-- The particulars-rebuilding loop reports the first offending item —
an item with non-empty description and amount whose amount is unparsable or
non-positive — under its 1-based index, provided every earlier item is
either skipped or accepted. -/
theorem buildParticulars_first_offender (ps : List PartInput) (i : Nat)
    (p : PartInput) (hp : ps[i]? = some p)
    (hbefore : ∀ j, j < i → ∀ p', ps[j]? = some p' →
      partSkipped p' ∨ partAccepted p')
    (hdesc : pyStrip p.description ≠ "") (hamt : pyStrip p.amount ≠ "") :
    ∀ n,
      (parseDecimal (pyStrip p.amount) = none →
        buildParticulars ps n = .error (.invalidAmount (n + i + 1))) ∧
      (∀ q, parseDecimal (pyStrip p.amount) = some q → q ≤ 0 →
        buildParticulars ps n = .error (.nonPositiveAmount (n + i + 1))) := by
  induction ps generalizing i with
  | nil => simp at hp
  | cons p0 rest ih =>
    intro n
    cases i with
    | zero =>
      simp only [List.getElem?_cons_zero, Option.some.injEq] at hp
      subst hp
      constructor
      · intro hparse
        simp only [buildParticulars, if_pos (And.intro hdesc hamt), hparse]
      · intro q hq hle
        simp only [buildParticulars, if_pos (And.intro hdesc hamt), hq,
          if_pos hle]
    | succ i' =>
      have hp' : rest[i']? = some p := by simpa using hp
      have hbefore' : ∀ j, j < i' → ∀ p', rest[j]? = some p' →
          partSkipped p' ∨ partAccepted p' := fun j hj p' hpj =>
        hbefore (j + 1) (by omega) p' (by simpa using hpj)
      obtain ⟨ihn, ihs⟩ := ih i' hp' hbefore' (n + 1)
      have hidx : n + 1 + i' + 1 = n + (i' + 1) + 1 := by omega
      by_cases hcond : pyStrip p0.description ≠ "" ∧ pyStrip p0.amount ≠ ""
      · have haccd : partAccepted p0 := by
          rcases hbefore 0 (by omega) p0 (by simp) with hskip | haccd
          · rcases hskip with h | h
            · exact absurd h hcond.1
            · exact absurd h hcond.2
          · exact haccd
        obtain ⟨q0, hq0, hq0pos⟩ := haccd
        have hred : buildParticulars (p0 :: rest) n =
            (buildParticulars rest (n + 1)).map
              (fun l => ⟨pyStrip p0.description, q0, p0.attachment⟩ :: l) := by
          simp only [buildParticulars, if_pos hcond, hq0,
            if_neg (by exact fun h => absurd hq0pos (by simpa using h))]
        constructor
        · intro hparse
          rw [hred, ihn hparse, hidx]
          rfl
        · intro q hq hle
          rw [hred, ihs q hq hle, hidx]
          rfl
      · have hred : buildParticulars (p0 :: rest) n =
            buildParticulars rest (n + 1) := by
          simp only [buildParticulars, if_neg hcond]
        constructor
        · intro hparse
          rw [hred, ihn hparse, hidx]
        · intro q hq hle
          rw [hred, ihs q hq hle, hidx]

/-! ### Claims about voucher submission -/

/-- A submission request used by several witnesses: a cash voucher by the
accountant with one valid particular. -/
def sampleCashReq : SubmitReq where
  actor := "acc"
  voucherDate := "2024-01-02"
  paymentType := "CASH"
  nameTitle := "MR"
  payTo := "Bob"
  chequeNumberRaw := ""
  attachment := some ("receipt.pdf", 1000)
  particulars := [⟨"item1", "10", none⟩]

/-- `sampleCashReq` with no particulars at all — always rejected. -/
def sampleNoPartsReq : SubmitReq :=
  { sampleCashReq with particulars := [] }

/-- A cheque-payment submission with an all-digit cheque number padded by
whitespace. -/
def sampleChequeReq : SubmitReq :=
  { sampleCashReq with paymentType := "CHEQUE", chequeNumberRaw := " 1204 " }

/-- The voucher created by submitting `sampleChequeReq` against `sampleDB`
(the fallback arm is never taken). -/
def sampleChequeVoucher : VoucherRec :=
  match (submit sampleDB sampleChequeReq).2 with
  | .ok v => v
  | .error _ => default

/-- C4: for CHEQUE payments a non-empty all-digit (stripped) cheque number
must be supplied or the submission cannot succeed; on success the stored
cheque number is the stripped submitted value for CHEQUE payments and
`none` for every other payment type regardless of what was submitted. -/
theorem claim_C4 (db : DB) (req : SubmitReq) :
    (req.paymentType = "CHEQUE" →
      ¬(pyStrip req.chequeNumberRaw ≠ "" ∧
        ((pyStrip req.chequeNumberRaw).data.all (·.isDigit)) = true) →
      ∀ v, (submit db req).2 ≠ .ok v) ∧
    (∀ v, (submit db req).2 = .ok v →
      v.chequeNumber = if req.paymentType = "CHEQUE"
        then some (pyStrip req.chequeNumberRaw) else none) := by
  constructor
  · intro hcheq hbad v hok
    obtain ⟨vd, hvd, -, -, -, -, -⟩ := submit_ok db req v hok
    exact hbad ((validate_ok_cheque db req vd hvd).2 hcheq)
  · intro v hok
    obtain ⟨vd, hvd, -, hch, -, -, -⟩ := submit_ok db req v hok
    rw [hch, (validate_ok_cheque db req vd hvd).1]

/-- Witness for C4: the successful cheque submission stores the stripped
digit string. -/
theorem claim_C4_witness :
    sampleChequeVoucher.chequeNumber =
      (if sampleChequeReq.paymentType = "CHEQUE"
        then some (pyStrip sampleChequeReq.chequeNumberRaw) else none) :=
  (claim_C4 sampleDB sampleChequeReq).2 sampleChequeVoucher rfl

/-- A submission containing a particular whose description is empty — the
view loop drops it silently and accepts the rest. -/
def sampleSkipReq : SubmitReq :=
  { sampleCashReq with particulars := [⟨"item1", "10", none⟩, ⟨"", "5", none⟩] }

/-- The voucher created by submitting `sampleSkipReq` against `sampleDB`
(the fallback arm is never taken). -/
def sampleSkipVoucher : VoucherRec :=
  match (submit sampleDB sampleSkipReq).2 with
  | .ok v => v
  | .error _ => default

/-- A submission whose only particular has the unparsable amount `"x9"`. -/
def sampleBadAmountReq : SubmitReq :=
  { sampleCashReq with particulars := [⟨"item1", "x9", none⟩] }

/-- C6 counterexample: the claim demands that a particular with a missing
description make the submission fail with an indexed ValidationError, but
the view loop silently skips such items: `sampleSkipReq` carries the
description-less item at index 2 (1-based) and the submission succeeds. -/
theorem claim_C6_counterexample :
    (submit sampleDB sampleSkipReq).2 = .ok sampleSkipVoucher ∧
      sampleSkipReq.particulars[1]? = some ⟨"", "5", none⟩ ∧
      pyStrip "" = "" :=
  ⟨rfl, rfl, rfl⟩

/-- C6 (amended): among the particulars whose stripped description and
amount are both non-empty, the first one with an unparsable amount fails the
submission with `'Invalid amount for item i'` and the first one with a
non-positive amount with `'Amount must be > 0 for item i'`, `i` the 1-based
index; particulars with an empty description or empty amount are silently
dropped instead of being reported. -/
theorem claim_C6 (db : DB) (req : SubmitReq) (i : Nat) (p : PartInput)
    (hacc : isAccountant db req.actor = true)
    (hp : req.particulars[i]? = some p)
    (hbefore : ∀ j, j < i → ∀ p', req.particulars[j]? = some p' →
      partSkipped p' ∨ partAccepted p')
    (hdesc : pyStrip p.description ≠ "") (hamt : pyStrip p.amount ≠ "") :
    (parseDecimal (pyStrip p.amount) = none →
      (submit db req).2 = .error (.invalidAmount (i + 1))) ∧
    (∀ q, parseDecimal (pyStrip p.amount) = some q → q ≤ 0 →
      (submit db req).2 = .error (.nonPositiveAmount (i + 1))) := by
  obtain ⟨hn, hs⟩ :=
    buildParticulars_first_offender req.particulars i p hp hbefore hdesc hamt 0
  have hidx : 0 + i + 1 = i + 1 := by omega
  rw [hidx] at hn hs
  constructor
  · intro hparse
    unfold submit validateSubmission
    rw [hacc, if_neg (show ¬((!true) = true) from by decide), hn hparse]
  · intro q hq hle
    unfold submit validateSubmission
    rw [hacc, if_neg (show ¬((!true) = true) from by decide), hs q hq hle]

/-- Witness for the amended C6: the lone item `("item1", "x9")` yields the
indexed invalid-amount error. -/
theorem claim_C6_witness :
    (parseDecimal (pyStrip ("x9" : String)) = none →
      (submit sampleDB sampleBadAmountReq).2 =
        .error (.invalidAmount (0 + 1))) ∧
    (∀ q, parseDecimal (pyStrip ("x9" : String)) = some q → q ≤ 0 →
      (submit sampleDB sampleBadAmountReq).2 =
        .error (.nonPositiveAmount (0 + 1))) :=
  claim_C6 sampleDB sampleBadAmountReq 0 ⟨"item1", "x9", none⟩ (by decide) rfl
    (fun j hj p' hpj => absurd hj (by omega)) (by decide) (by decide)

/-- C8: a submission that fails validation mutates nothing: every error
path of `submit` returns the store unchanged (all validation runs before
any write). -/
theorem claim_C8 (db : DB) (req : SubmitReq) (e : SubmitError)
    (herr : (submit db req).2 = .error e) : (submit db req).1 = db := by
  unfold submit at herr ⊢
  cases hv : validateSubmission db req with
  | error e0 => rfl
  | ok vd =>
    rw [hv] at herr
    dsimp only at herr ⊢
    unfold persistSubmission at herr ⊢
    cases hn : nextVoucherNumber db.vouchers with
    | none => rfl
    | some vn =>
      rw [hn] at herr
      exact absurd herr (by simp)

/-- Witness for C8: the zero-particular submission fails and leaves the
store untouched. -/
theorem claim_C8_witness : (submit sampleDB sampleNoPartsReq).1 = sampleDB :=
  claim_C8 sampleDB sampleNoPartsReq .noParticulars rfl

/-! ### Claim about voucher numbering -/

/-- C7: from any well-numbered store, `Voucher.save` assigns `'VCH'`
followed by the highest existing numeric suffix plus one, zero-padded to 4
digits (`'VCH0001'` on an empty store); the new suffix strictly exceeds
every stored suffix, well-numbering is preserved, and a successful `submit`
creates exactly such a voucher. -/
theorem claim_C7 (vs : List VoucherRec) (hwn : WellNumbered vs) :
    nextVoucherNumber vs = some (mkVoucherNumber (maxSuffix vs + 1)) ∧
    mkVoucherNumber 1 = "VCH0001" ∧
    nextVoucherNumber [] = some "VCH0001" ∧
    (∀ v ∈ vs, (suffixOf v).getD 0 < maxSuffix vs + 1) ∧
    (∀ nv : VoucherRec, nv.id = newVoucherId vs →
      nv.voucherNumber = mkVoucherNumber (maxSuffix vs + 1) →
      WellNumbered (vs ++ [nv])) ∧
    (∀ (db : DB) (req : SubmitReq) (v : VoucherRec), db.vouchers = vs →
      (submit db req).2 = .ok v →
      v.voucherNumber = mkVoucherNumber (maxSuffix vs + 1) ∧
      v.id = newVoucherId vs ∧ (submit db req).1.vouchers = vs ++ [v]) := by
  have h1 : nextVoucherNumber vs = some (mkVoucherNumber (maxSuffix vs + 1)) := by
    cases vs with
    | nil => rfl
    | cons v0 t =>
      obtain ⟨w, hlv, hwmem, hwmax⟩ := lastVoucher_max v0 t
      obtain ⟨htake, hsome⟩ := hwn.1 w hwmem
      obtain ⟨sw, hsw⟩ := Option.isSome_iff_exists.mp hsome
      have hsuffix : sw = maxSuffix (v0 :: t) := by
        apply Nat.le_antisymm
        · have hmem : (suffixOf w).getD 0 ≤
              (v0 :: t).foldl (fun m v => max m ((suffixOf v).getD 0)) 0 :=
            foldl_max_le_of_mem (fun v => (suffixOf v).getD 0) (v0 :: t) 0 w hwmem
          unfold maxSuffix
          rw [hsw] at hmem
          simpa using hmem
        · apply foldl_max_le
          · exact Nat.zero_le sw
          · intro x hx
            have hle := hwn.2 x hx w hwmem (hwmax x hx)
            rw [hsw] at hle
            simpa using hle
      unfold nextVoucherNumber
      rw [hlv]
      dsimp only
      rw [if_pos htake,
        show pyInt (String.mk (w.voucherNumber.data.drop 3)) = suffixOf w
          from rfl,
        hsw, hsuffix]
      rfl
  refine ⟨h1, mkVoucherNumber_one, ?_, ?_, ?_, ?_⟩
  · rw [show nextVoucherNumber [] = some (mkVoucherNumber 1) from rfl,
      mkVoucherNumber_one]
  · intro v hv
    have hle : (suffixOf v).getD 0 ≤
        vs.foldl (fun m v => max m ((suffixOf v).getD 0)) 0 :=
      foldl_max_le_of_mem (fun v => (suffixOf v).getD 0) vs 0 v hv
    unfold maxSuffix
    omega
  · intro nv hid hnum
    have hsufnv : suffixOf nv = some (maxSuffix vs + 1) := by
      unfold suffixOf
      rw [hnum]
      exact mkVoucherNumber_suffix _
    constructor
    · intro v hv
      rcases List.mem_append.mp hv with h | h
      · exact hwn.1 v h
      · simp only [List.mem_singleton] at h
        subst h
        refine ⟨?_, ?_⟩
        · rw [hnum]
          exact mkVoucherNumber_take _
        · rw [hsufnv]
          rfl
    · intro v hv w hw hle
      rcases List.mem_append.mp hv with h1 | h1 <;>
        rcases List.mem_append.mp hw with h2 | h2
      · exact hwn.2 v h1 w h2 hle
      · simp only [List.mem_singleton] at h2
        subst h2
        rw [hsufnv]
        have hmax : (suffixOf v).getD 0 ≤
            vs.foldl (fun m v => max m ((suffixOf v).getD 0)) 0 :=
          foldl_max_le_of_mem (fun v => (suffixOf v).getD 0) vs 0 v h1
        unfold maxSuffix
        simp only [Option.getD_some]
        omega
      · simp only [List.mem_singleton] at h1
        subst h1
        have hwid : w.id ≤ vs.foldl (fun m v => max m v.id) 0 :=
          foldl_max_le_of_mem (fun v : VoucherRec => v.id) vs 0 w h2
        rw [hid] at hle
        unfold newVoucherId at hle
        omega
      · simp only [List.mem_singleton] at h1 h2
        subst h1
        subst h2
        exact Nat.le_refl _
  · intro db req v hdb hok
    obtain ⟨vd, -, hnum, -, -, hid, happ⟩ := submit_ok db req v hok
    rw [hdb] at hnum hid happ
    rw [h1] at hnum
    exact ⟨(Option.some.inj hnum).symm, hid, happ⟩

/-- Witness for C7 at the one-voucher store of `sampleDB`. -/
theorem claim_C7_witness :
    nextVoucherNumber sampleDB.vouchers =
      some (mkVoucherNumber (maxSuffix sampleDB.vouchers + 1)) ∧
    mkVoucherNumber 1 = "VCH0001" :=
  ⟨(claim_C7 sampleDB.vouchers (by unfold WellNumbered; decide)).1,
    (claim_C7 sampleDB.vouchers (by unfold WellNumbered; decide)).2.1⟩

end VoucherSystem
